import Mathlib

/-!
Verification of the tiimu-dsl-evaluator repository (Rust) against its
specification. The Rust crates tiimu-expr-ast, tiimu-expr-eval,
tiimu-expr-typecheck and tiimu-dsl are shallowly embedded below:
pure Rust functions become Lean functions, Result becomes Except,
Option stays Option, HashMap String V becomes an association list with
first-match lookup, HashSet String becomes Finset String.
Rust f64 is modelled by the exact rationals Rat; the IEEE special values
(NaN, infinities) are outside the model, and no claim below depends on
them. The regex crate is modelled by an explicit compile function passed
as a parameter, since no claim exercises regex matching.
-/

namespace Tiimu

/-- From tiimu-expr-ast: a dotted path reference, stored as segments. -/
structure FieldRef where
  path : List String
deriving DecidableEq

/-- From tiimu-expr-ast: FieldRef.as_dotted, the segments joined by periods. -/
def FieldRef.as_dotted (f : FieldRef) : String :=
  String.intercalate "." f.path

mutual

/-- From tiimu-expr-ast: enum Literal. Number carries f64, modelled as Rat. -/
inductive Literal where
  | Bool (b : Bool)
  | Number (n : Rat)
  | Str (s : String)
  | Null
  | Regex (s : String)
  | List (items : List LiteralOrField)

/-- From tiimu-expr-ast: enum LiteralOrField. -/
inductive LiteralOrField where
  | Lit (l : Literal)
  | Field (f : FieldRef)

end

/-- From tiimu-expr-ast: enum CompareOp. -/
inductive CompareOp where
  | Eq | Ne | Lt | Le | Gt | Ge
deriving DecidableEq

/-- From tiimu-expr-ast: enum MembershipOp. -/
inductive MembershipOp where
  | In | NotIn
deriving DecidableEq

/-- From tiimu-expr-ast: enum ContainsOp. -/
inductive ContainsOp where
  | Contains
deriving DecidableEq

/-- From tiimu-expr-ast: enum LogicalOp. -/
inductive LogicalOp where
  | And | Or
deriving DecidableEq

/-- From tiimu-expr-ast: enum Expr, the expression AST. -/
inductive Expr where
  | Not (e : Expr)
  | Logical (op : LogicalOp) (lhs rhs : Expr)
  | Compare (field : FieldRef) (op : CompareOp) (value : LiteralOrField)
  | Membership (field : FieldRef) (op : MembershipOp) (list : LiteralOrField)
  | Contains (field : FieldRef) (op : ContainsOp) (value : LiteralOrField)
  | RegexMatch (field : FieldRef) (pattern : String)
  | Call (name : String) (args : List Expr)
  | Literal (l : Literal)
  | Field (f : FieldRef)

/-- From tiimu-expr-eval: enum Value, the runtime value domain.
Number carries f64, modelled as Rat. -/
inductive Value where
  | Bool (b : Bool)
  | Number (n : Rat)
  | Str (s : String)
  | Null
  | Set (items : List Value)

mutual

/-- The derived PartialEq of the Rust enum Value: structural, and
positional (index by index) on the Vec inside Set. -/
def valueEq : Value → Value → Bool
  | Value.Bool a, Value.Bool b => a == b
  | Value.Number a, Value.Number b => a == b
  | Value.Str a, Value.Str b => a == b
  | Value.Null, Value.Null => true
  | Value.Set a, Value.Set b => valueListEq a b
  | _, _ => false

/-- The derived PartialEq of Vec of Value: equal length and pairwise equal. -/
def valueListEq : List Value → List Value → Bool
  | [], [] => true
  | x :: xs, y :: ys => valueEq x y && valueListEq xs ys
  | _, _ => false

end

/-- From tiimu-expr-ast: struct Dependencies. The Rust HashSet String is
modelled as Finset String. -/
structure Dependencies where
  fields : Finset String
  functions : Finset String
deriving DecidableEq

/-- From tiimu-expr-ast: fn add_field, inserts the dotted form. -/
def add_field (d : Dependencies) (fr : FieldRef) : Dependencies :=
  { d with fields := insert fr.as_dotted d.fields }

mutual

/-- From tiimu-expr-ast: fn add_lit_or_field. A Field contributes its
dotted form; a List literal is walked member by member; other literals
contribute nothing. -/
def add_lit_or_field (d : Dependencies) (v : LiteralOrField) : Dependencies :=
  match v with
  | LiteralOrField.Field fr => add_field d fr
  | LiteralOrField.Lit (Literal.List items) => add_lof_list d items
  | _ => d

/-- The for-loop inside add_lit_or_field over the list members. -/
def add_lof_list (d : Dependencies) : List LiteralOrField → Dependencies
  | [] => d
  | it :: rest => add_lof_list (add_lit_or_field d it) rest

end

mutual

/-- From tiimu-expr-ast: fn walk, the recursive dependency collector. -/
def walk (e : Expr) (d : Dependencies) : Dependencies :=
  match e with
  | Expr.Not e => walk e d
  | Expr.Logical _ lhs rhs => walk rhs (walk lhs d)
  | Expr.Compare field _ value => add_lit_or_field (add_field d field) value
  | Expr.Membership field _ list => add_lit_or_field (add_field d field) list
  | Expr.Contains field _ value => add_lit_or_field (add_field d field) value
  | Expr.RegexMatch field _ => add_field d field
  | Expr.Call name args =>
      walk_args args { d with functions := insert name d.functions }
  | Expr.Literal _ => d
  | Expr.Field fr => add_field d fr

/-- The for-loop inside the Call arm of walk over the arguments. -/
def walk_args (args : List Expr) (d : Dependencies) : Dependencies :=
  match args with
  | [] => d
  | a :: rest => walk_args rest (walk a d)

end

/-- From tiimu-expr-ast: fn extract_dependencies. -/
def extract_dependencies (e : Expr) : Dependencies :=
  walk e ⟨∅, ∅⟩

/-- From tiimu-expr-eval: struct EvalContext. The Rust
HashMap String Value is modelled as an association list with
first-match lookup; keys are dotted field paths. -/
structure EvalContext where
  values : List (String × Value)

/-- HashMap get on the context map. -/
def EvalContext.find (ctx : EvalContext) (k : String) : Option Value :=
  ctx.values.lookup k

/-- From tiimu-expr-eval: EvalContext.get, lookup by the dotted form. -/
def EvalContext.get (ctx : EvalContext) (field : FieldRef) : Option Value :=
  ctx.find field.as_dotted

/-- HashMap contains_key on the context map. -/
def EvalContext.contains_key (ctx : EvalContext) (k : String) : Bool :=
  (ctx.find k).isSome

/-- From tiimu-expr-eval: enum EvalError. The Type and Regex variants are
named typeError and regexError here because type is a Lean keyword. -/
inductive EvalError where
  | MissingField (path : String)
  | typeError (msg : String)
  | regexError (msg : String)
deriving DecidableEq

/-- From tiimu-expr-eval: a registered function body, the call method of
the trait Function: evaluated argument values and the context to a
value or an error. -/
def FuncImpl : Type :=
  List Value → EvalContext → Except EvalError Value

/-- From tiimu-expr-eval: struct FunctionRegistry, a map from name to
function implementation, modelled as an association list with
first-match lookup (HashMap semantics). -/
structure FunctionRegistry where
  funcs : List (String × FuncImpl)

/-- From tiimu-expr-eval: FunctionRegistry.get. -/
def FunctionRegistry.get (r : FunctionRegistry) (name : String) : Option FuncImpl :=
  r.funcs.lookup name

/-- From tiimu-expr-eval: fn as_bool. -/
def as_bool (v : Value) : Except EvalError Bool :=
  match v with
  | Value.Bool b => Except.ok b
  | _ => Except.error (EvalError.typeError "expected bool")

/-- From tiimu-expr-eval: fn as_string. -/
def as_string (v : Value) : Except EvalError String :=
  match v with
  | Value.Str s => Except.ok s
  | _ => Except.error (EvalError.typeError "expected string")

/-- Rust str contains, the substring test, as infix of the char lists. -/
def strContainsSub (s sub : String) : Bool :=
  decide (sub.data <:+: s.data)

/-- From tiimu-expr-eval: fn compare. Only same-kind Number, String and
Bool pairs are comparable; Bool supports only Eq and Ne. -/
def compare (op : CompareOp) (a b : Value) : Except EvalError Bool :=
  match a, b with
  | Value.Number x, Value.Number y =>
      Except.ok (match op with
        | CompareOp.Eq => x == y
        | CompareOp.Ne => x != y
        | CompareOp.Lt => decide (x < y)
        | CompareOp.Le => decide (x ≤ y)
        | CompareOp.Gt => decide (x > y)
        | CompareOp.Ge => decide (x ≥ y))
  | Value.Str x, Value.Str y =>
      Except.ok (match op with
        | CompareOp.Eq => x == y
        | CompareOp.Ne => x != y
        | CompareOp.Lt => decide (x < y)
        | CompareOp.Le => decide (x ≤ y)
        | CompareOp.Gt => decide (x > y)
        | CompareOp.Ge => decide (x ≥ y))
  | Value.Bool x, Value.Bool y =>
      (match op with
        | CompareOp.Eq => Except.ok (x == y)
        | CompareOp.Ne => Except.ok (x != y)
        | _ => Except.error (EvalError.typeError "ordering not supported for bool"))
  | _, _ => Except.error (EvalError.typeError "incompatible types for compare")

/-- From tiimu-expr-eval: fn membership. The target must be a Set; the
element test is the derived PartialEq of Value; NotIn negates. -/
def membership (op : MembershipOp) (item target : Value) : Except EvalError Bool :=
  match target with
  | Value.Set items =>
      let contained := items.any (fun v => valueEq v item)
      Except.ok (match op with
        | MembershipOp.In => contained
        | MembershipOp.NotIn => !contained)
  | _ => Except.error (EvalError.typeError "membership target must be set")

/-- From tiimu-expr-eval: fn contains. String with String is a substring
test; Set with any value is an element test by the derived PartialEq. -/
def contains (container needle : Value) : Except EvalError Bool :=
  match container, needle with
  | Value.Str s, Value.Str sub => Except.ok (strContainsSub s sub)
  | Value.Set items, v => Except.ok (items.any (fun x => valueEq x v))
  | _, _ => Except.error (EvalError.typeError "contains expects string/string or set/T")

mutual

/-- From tiimu-expr-eval: fn literal_to_value. Note that a Field member
of a List literal becomes the string of its dotted path, not a context
lookup. -/
def literal_to_value : Literal → Value
  | Literal.Bool b => Value.Bool b
  | Literal.Number n => Value.Number n
  | Literal.Str s => Value.Str s
  | Literal.Null => Value.Null
  | Literal.Regex s => Value.Str s
  | Literal.List items => Value.Set (lof_to_values items)

/-- The map inside the List arm of literal_to_value. -/
def lof_to_values : List LiteralOrField → List Value
  | [] => []
  | LiteralOrField.Lit li :: rest => literal_to_value li :: lof_to_values rest
  | LiteralOrField.Field fr :: rest => Value.Str fr.as_dotted :: lof_to_values rest

end

/-- From tiimu-expr-eval: fn eval_lit_or_field. The registry argument is
unused in the source (named with an underscore there too). -/
def eval_lit_or_field (v : LiteralOrField) (ctx : EvalContext)
    (_fns : FunctionRegistry) : Except EvalError Value :=
  match v with
  | LiteralOrField.Lit l => Except.ok (literal_to_value l)
  | LiteralOrField.Field fr =>
      match ctx.get fr with
      | some v => Except.ok v
      | none => Except.error (EvalError.MissingField fr.as_dotted)

/-- The guard of the special form in the Call arm of eval_value: the Rust
code takes the early-return branch exactly when the name is exists, there
is exactly one argument, and that argument is syntactically a Field node;
this function returns that field reference in that case and none
otherwise. -/
def isExistsForm (name : String) (args : List Expr) : Option FieldRef :=
  match args with
  | [Expr.Field fr] => if name = "exists" then some fr else none
  | _ => none

/-- The regex crate boundary: Regex.new as a compile function from the
pattern to either an error message or a matcher. eval_value is
parametric in it; no claim exercises regex matching. -/
def RegexCompile : Type :=
  String → Except String (String → Bool)

mutual

/-- From tiimu-expr-eval: fn eval_value, the recursive interpreter. -/
def eval_value (rx : RegexCompile) (expr : Expr) (ctx : EvalContext)
    (fns : FunctionRegistry) : Except EvalError Value :=
  match expr with
  | Expr.Not e => do
      let b ← as_bool (← eval_value rx e ctx fns)
      return Value.Bool (!b)
  | Expr.Logical op lhs rhs =>
      (match op with
        | LogicalOp.And => do
            let l ← as_bool (← eval_value rx lhs ctx fns)
            if !l then return Value.Bool false
            let r ← as_bool (← eval_value rx rhs ctx fns)
            return Value.Bool (l && r)
        | LogicalOp.Or => do
            let l ← as_bool (← eval_value rx lhs ctx fns)
            if l then return Value.Bool true
            let r ← as_bool (← eval_value rx rhs ctx fns)
            return Value.Bool (l || r))
  | Expr.Compare field op value => do
      let fv ← match ctx.get field with
        | some v => pure v
        | none => Except.error (EvalError.MissingField field.as_dotted)
      let vv ← eval_lit_or_field value ctx fns
      let b ← compare op fv vv
      return Value.Bool b
  | Expr.Membership field op list => do
      let fv ← match ctx.get field with
        | some v => pure v
        | none => Except.error (EvalError.MissingField field.as_dotted)
      let target ← eval_lit_or_field list ctx fns
      let b ← membership op fv target
      return Value.Bool b
  | Expr.Contains field _ value => do
      let fv ← match ctx.get field with
        | some v => pure v
        | none => Except.error (EvalError.MissingField field.as_dotted)
      let vv ← eval_lit_or_field value ctx fns
      let b ← contains fv vv
      return Value.Bool b
  | Expr.RegexMatch field pattern => do
      let fv ← match ctx.get field with
        | some v => pure v
        | none => Except.error (EvalError.MissingField field.as_dotted)
      let s ← as_string fv
      match rx pattern with
      | Except.error e => Except.error (EvalError.regexError e)
      | Except.ok m => return Value.Bool (m s)
  | Expr.Call name args =>
      (match isExistsForm name args with
        | some fr => Except.ok (Value.Bool (ctx.contains_key fr.as_dotted))
        | none => do
            let argv ← eval_args rx args ctx fns
            match fns.get name with
            | some f => f argv ctx
            | none => Except.error (EvalError.typeError ("unknown function " ++ name)))
  | Expr.Literal l => Except.ok (literal_to_value l)
  | Expr.Field fr =>
      match ctx.get fr with
      | some v => Except.ok v
      | none => Except.error (EvalError.MissingField fr.as_dotted)

/-- The eager left-to-right evaluation of call arguments in the Call arm
of eval_value; the first error aborts. -/
def eval_args (rx : RegexCompile) (args : List Expr) (ctx : EvalContext)
    (fns : FunctionRegistry) : Except EvalError (List Value) :=
  match args with
  | [] => Except.ok []
  | a :: rest => do
      let v ← eval_value rx a ctx fns
      let vs ← eval_args rx rest ctx fns
      return v :: vs

end

/-- From tiimu-expr-eval: fn eval_with_registry, which requires a Bool
result at the top level. -/
def eval_with_registry (rx : RegexCompile) (expr : Expr) (ctx : EvalContext)
    (fns : FunctionRegistry) : Except EvalError Bool :=
  match eval_value rx expr ctx fns with
  | Except.ok (Value.Bool b) => Except.ok b
  | Except.ok _ => Except.error (EvalError.typeError "top-level must be bool")
  | Except.error e => Except.error e

/-- From tiimu-expr-eval: the builtin LenFn, length of a string in
characters or the element count of a set. -/
def LenFn : FuncImpl := fun args _ctx =>
  match args with
  | [Value.Str s] => Except.ok (Value.Number (s.length : Rat))
  | [Value.Set v] => Except.ok (Value.Number (v.length : Rat))
  | [_] => Except.error (EvalError.typeError "len expects string or set")
  | _ => Except.error (EvalError.typeError "len expects 1 arg")

/-- From tiimu-expr-eval: FunctionRegistry.with_builtins. -/
def FunctionRegistry.with_builtins : FunctionRegistry :=
  ⟨[("len", LenFn)]⟩

/-- From tiimu-expr-eval: fn eval, the default-registry entry point. -/
def eval (rx : RegexCompile) (expr : Expr) (ctx : EvalContext) : Except EvalError Bool :=
  eval_with_registry rx expr ctx FunctionRegistry.with_builtins

/-- From tiimu-expr-typecheck: enum Ty, the static type domain. -/
inductive Ty where
  | Bool
  | Number
  | Str
  | Null
  | Set (t : Ty)
  | Any
deriving DecidableEq

/-- From tiimu-expr-typecheck: enum TypeError. -/
inductive TypeError where
  | UnknownField (path : String)
  | TypeMismatch (msg : String)
  | UnknownFunction (name : String)
  | InvalidRegex (msg : String)
  | NotBoolean
deriving DecidableEq

/-- From tiimu-expr-typecheck: the Dictionary trait, a field-type lookup. -/
def Dictionary : Type :=
  FieldRef → Option Ty

/-- From tiimu-expr-typecheck: the FunctionRegistry trait of that crate,
a signature lookup from name to parameter types and return type. -/
def FunctionSignatures : Type :=
  String → Option (List Ty × Ty)

/-- The regex crate boundary on the typecheck side: Regex.new as a
validation from the pattern to either an error message or success. -/
def RegexCheck : Type :=
  String → Except String Unit

/-- From tiimu-expr-typecheck: fn ensure_bool. -/
def ensure_bool (t : Ty) (msg : String) : Except TypeError Unit :=
  if t ≠ Ty.Bool then Except.error (TypeError.TypeMismatch msg) else Except.ok ()

/-- From tiimu-expr-typecheck: fn infer_value, the type of a literal or
a field operand. -/
def infer_value (v : LiteralOrField) (dict : Dictionary) : Except TypeError Ty :=
  match v with
  | LiteralOrField.Lit l =>
      Except.ok (match l with
        | Literal.Bool _ => Ty.Bool
        | Literal.Number _ => Ty.Number
        | Literal.Str _ => Ty.Str
        | Literal.Null => Ty.Null
        | Literal.Regex _ => Ty.Str
        | Literal.List _ => Ty.Any)
  | LiteralOrField.Field fr =>
      match dict fr with
      | some t => Except.ok t
      | none => Except.error (TypeError.UnknownField fr.as_dotted)

mutual

/-- From tiimu-expr-typecheck: fn infer, the bottom-up type inference.
The source interpolates the two offending types into the message of the
final Compare mismatch arm; the message is abbreviated here. -/
def infer (rxv : RegexCheck) (dict : Dictionary) (fns : FunctionSignatures) :
    Expr → Except TypeError Ty
  | Expr.Not e => do
      ensure_bool (← infer rxv dict fns e) "! expects bool"
      return Ty.Bool
  | Expr.Logical _ lhs rhs => do
      ensure_bool (← infer rxv dict fns lhs) "lhs must be bool"
      ensure_bool (← infer rxv dict fns rhs) "rhs must be bool"
      return Ty.Bool
  | Expr.Compare field op value => do
      let ft ← match dict field with
        | some t => pure t
        | none => Except.error (TypeError.UnknownField field.as_dotted)
      let vt ← infer_value value dict
      match ft, vt with
      | Ty.Number, Ty.Number => return Ty.Bool
      | Ty.Str, Ty.Str => return Ty.Bool
      | Ty.Bool, Ty.Bool => return Ty.Bool
      | _, Ty.Null | Ty.Null, _ =>
          (match op with
            | CompareOp.Eq => return Ty.Bool
            | CompareOp.Ne => return Ty.Bool
            | _ => Except.error (TypeError.TypeMismatch "null only with == or !="))
      | _, _ => Except.error (TypeError.TypeMismatch "cannot compare")
  | Expr.Membership field _ list => do
      let ft ← match dict field with
        | some t => pure t
        | none => Except.error (TypeError.UnknownField field.as_dotted)
      match ft, list with
      | Ty.Str, LiteralOrField.Lit (Literal.List _) => return Ty.Bool
      | Ty.Number, LiteralOrField.Lit (Literal.List _) => return Ty.Bool
      | Ty.Set _, LiteralOrField.Lit (Literal.List _) => return Ty.Bool
      | Ty.Str, LiteralOrField.Field fr =>
          (match dict fr with
            | none => Except.error (TypeError.UnknownField fr.as_dotted)
            | some (Ty.Set inner) =>
                if inner = Ty.Str then return Ty.Bool
                else Except.error (TypeError.TypeMismatch "membership expects set<string>")
            | some _ => Except.error (TypeError.TypeMismatch "membership expects set<string>"))
      | _, _ => Except.error (TypeError.TypeMismatch "invalid membership usage")
  | Expr.Contains field _ value => do
      let ft ← match dict field with
        | some t => pure t
        | none => Except.error (TypeError.UnknownField field.as_dotted)
      let vt ← infer_value value dict
      match ft with
      | Ty.Str =>
          if vt = Ty.Str then return Ty.Bool
          else Except.error (TypeError.TypeMismatch "contains requires string/string or set<T>/T")
      | Ty.Set inner =>
          if inner = vt then return Ty.Bool
          else Except.error (TypeError.TypeMismatch "contains requires string/string or set<T>/T")
      | _ => Except.error (TypeError.TypeMismatch "contains requires string/string or set<T>/T")
  | Expr.RegexMatch field pattern => do
      let ft ← match dict field with
        | some t => pure t
        | none => Except.error (TypeError.UnknownField field.as_dotted)
      if ft ≠ Ty.Str then Except.error (TypeError.TypeMismatch "regex needs string field")
      else
        match rxv pattern with
        | Except.error e => Except.error (TypeError.InvalidRegex e)
        | Except.ok _ => return Ty.Bool
  | Expr.Call name args => do
      let sig ← match fns name with
        | some s => pure s
        | none => Except.error (TypeError.UnknownFunction name)
      if sig.1.length ≠ args.length then
        Except.error (TypeError.TypeMismatch "arg count mismatch")
      else do
        infer_args rxv dict fns args sig.1
        return sig.2
  | Expr.Literal l =>
      Except.ok (match l with
        | Literal.Bool _ => Ty.Bool
        | Literal.Number _ => Ty.Number
        | Literal.Str _ => Ty.Str
        | Literal.Null => Ty.Null
        | Literal.Regex _ => Ty.Str
        | Literal.List _ => Ty.Any)
  | Expr.Field fr =>
      match dict fr with
      | some t => Except.ok t
      | none => Except.error (TypeError.UnknownField fr.as_dotted)

/-- The zip loop of the Call arm of infer: each argument type must equal
the declared parameter type unless that parameter is Any. -/
def infer_args (rxv : RegexCheck) (dict : Dictionary) (fns : FunctionSignatures) :
    List Expr → List Ty → Except TypeError Unit
  | [], _ => Except.ok ()
  | _, [] => Except.ok ()
  | a :: rest, p :: prest => do
      let a_t ← infer rxv dict fns a
      if p ≠ Ty.Any ∧ a_t ≠ p then
        Except.error (TypeError.TypeMismatch "arg type mismatch")
      else infer_args rxv dict fns rest prest

end

/-- From tiimu-expr-typecheck: fn typecheck, which additionally requires
the inferred root type to be Bool. -/
def typecheck (rxv : RegexCheck) (dict : Dictionary) (fns : FunctionSignatures)
    (e : Expr) : Except TypeError Ty :=
  match infer rxv dict fns e with
  | Except.error err => Except.error err
  | Except.ok ty =>
      if ty ≠ Ty.Bool then Except.error TypeError.NotBoolean else Except.ok ty

/-- Modelled from the spec: the rule names of the pest grammar expr.pest.
The grammar file itself is not under src/ (only the surface syntax of
spec section 4.2 describes it); the Rust parser matches on these Rule
tags generated by pest. -/
inductive Rule where
  | expression
  | or_expr
  | and_expr
  | unary_expr
  | primary
  | predicate
  | function_call
  | literal
  | field_expr
  | field_ref
  | comparator
  | value
  | string
  | number
  | boolean
  | null
  | regex
  | list
  | other
deriving DecidableEq

/-- Modelled from the spec: a pest parse-tree node (a pest Pair): the
production rule that matched, the matched slice of the input (what
as_str returns), and the inner pairs (what into_inner yields) in order.
expr.pest is not under src/, so this shape follows spec section 4.2. -/
inductive Pair where
  | mk (rule : Rule) (str : String) (inner : List Pair)

/-- The rule tag of a pair (pest as_rule). -/
def Pair.rule : Pair → Rule
  | Pair.mk r _ _ => r

/-- The matched slice of a pair (pest as_str). -/
def Pair.str : Pair → String
  | Pair.mk _ s _ => s

/-- The inner pairs of a pair (pest into_inner). -/
def Pair.inner : Pair → List Pair
  | Pair.mk _ _ i => i

/-- From tiimu-dsl: enum DslError. -/
inductive DslError where
  | Parse (msg : String)
deriving DecidableEq

/-- The Rust f64 string parse used for number literals, as a parameter:
none models a parse failure. No claim exercises number parsing. -/
def NumberParse : Type :=
  String → Option Rat

/-- Rust split on a single character, over the character list: splitting
"a.b" gives ["a","b"], "a" gives ["a"], the empty string gives [""]. -/
def splitOnChar (c : Char) : List Char → List (List Char)
  | [] => [[]]
  | x :: xs =>
      let r := splitOnChar c xs
      if x = c then [] :: r
      else
        match r with
        | h :: t => (x :: h) :: t
        | [] => [[x]]

/-- From tiimu-dsl: fn parse_field_ref, splitting on periods
(Rust split with the period character). -/
def parse_field_ref (s : String) : FieldRef :=
  FieldRef.mk ((splitOnChar '.' s.data).map (fun l => String.mk l))

/-- Rust str replace over character lists, with fuel for structural
recursion: replace every non-overlapping occurrence of pat, scanning
left to right and continuing after each replaced segment. Never called
with an empty pat. -/
def replaceFuel : Nat → List Char → List Char → List Char → List Char
  | 0, s, _, _ => s
  | _ + 1, [], _, _ => []
  | fuel + 1, x :: xs, pat, rep =>
      if pat ≠ [] ∧ pat.isPrefixOf (x :: xs) then
        rep ++ replaceFuel fuel ((x :: xs).drop pat.length) pat rep
      else x :: replaceFuel fuel xs pat rep

/-- Rust str replace, on strings. -/
def replaceStr (s pat rep : String) : String :=
  String.mk (replaceFuel s.data.length s.data pat.data rep.data)

/-- From tiimu-dsl: fn build_literal. The byte-range slice that removes
the surrounding quotes is modelled by dropping one character at each
end (the quotes are one byte each). -/
def build_literal (pn : NumberParse) (p : Pair) : Except DslError Literal :=
  match p.rule with
  | Rule.boolean => Except.ok (Literal.Bool (p.str == "true"))
  | Rule.number =>
      (match pn p.str with
        | some n => Except.ok (Literal.Number n)
        | none => Except.error (DslError.Parse "invalid number"))
  | Rule.string =>
      let raw := p.str
      let inner := (raw.drop 1).dropRight 1
      Except.ok (Literal.Str (replaceStr (replaceStr inner "\\\"" "\"") "\\\\" "\\"))
  | Rule.null => Except.ok Literal.Null
  | _ => Except.ok Literal.Null

mutual

/-- From tiimu-dsl: fn build_value_or_field. A value pair unwraps to its
first inner pair; the source unwraps and would panic on an empty value
pair, modelled by a parse error never produced elsewhere. -/
def build_value_or_field (pn : NumberParse) : Pair → Except DslError LiteralOrField
  | Pair.mk Rule.value _ inner => build_first_inner pn inner
  | Pair.mk Rule.field_ref s _ =>
      Except.ok (LiteralOrField.Field (parse_field_ref s))
  | Pair.mk Rule.string s inner => do
      let l ← build_literal pn (Pair.mk Rule.string s inner)
      return LiteralOrField.Lit l
  | Pair.mk Rule.number s inner => do
      let l ← build_literal pn (Pair.mk Rule.number s inner)
      return LiteralOrField.Lit l
  | Pair.mk Rule.boolean s inner => do
      let l ← build_literal pn (Pair.mk Rule.boolean s inner)
      return LiteralOrField.Lit l
  | Pair.mk Rule.null s inner => do
      let l ← build_literal pn (Pair.mk Rule.null s inner)
      return LiteralOrField.Lit l
  | Pair.mk _ _ _ => Except.ok (LiteralOrField.Lit Literal.Null)

/-- The unwrap of the first inner pair in the value arm of
build_value_or_field. -/
def build_first_inner (pn : NumberParse) : List Pair → Except DslError LiteralOrField
  | first :: _ => build_value_or_field pn first
  | [] => Except.error (DslError.Parse "panic: value pair without inner")

end

/-- The for-loop of the list arm inside build_predicate: keep the inner
pairs whose rule is value and build each. -/
def build_list_items (pn : NumberParse) : List Pair → Except DslError (List LiteralOrField)
  | [] => Except.ok []
  | q :: rest =>
      if q.rule == Rule.value then do
        let item ← build_value_or_field pn q
        let more ← build_list_items pn rest
        return item :: more
      else build_list_items pn rest

/-- The comparator-string match inside the comparator arm of
build_predicate; the source defaults to Eq on an unexpected string. -/
def comparator_op (s : String) : CompareOp :=
  if s == "==" then CompareOp.Eq
  else if s == "!=" then CompareOp.Ne
  else if s == "<" then CompareOp.Lt
  else if s == "<=" then CompareOp.Le
  else if s == ">" then CompareOp.Gt
  else if s == ">=" then CompareOp.Ge
  else CompareOp.Eq

/-- From tiimu-dsl: fn build_predicate. The source dispatches on the
rendered text of the whole matched predicate (pair.as_str) by substring
search, in this order: the literal text contains-with-spaces, then a
tilde, then in-with-spaces, and otherwise the comparator arm. The
unwrap calls of the source panic when the expected part is absent;
those panics are modelled by parse errors never produced elsewhere. -/
def build_predicate (pn : NumberParse) : Pair → Except DslError Expr
  | Pair.mk _ text inner =>
    match inner with
    | [] => Except.error (DslError.Parse "panic: predicate without field")
    | fieldPair :: rest =>
      let field := parse_field_ref fieldPair.str
      if strContainsSub text " contains " then
        match rest.getLast? with
        | none => Except.error (DslError.Parse "panic: predicate without operand")
        | some target => do
            let value ← build_value_or_field pn target
            return Expr.Contains field ContainsOp.Contains value
      else if strContainsSub text "~" then
        match rest.find? (fun q => q.rule == Rule.regex) with
        | none => Except.error (DslError.Parse "panic: no regex pair")
        | some rp =>
            let raw := rp.str
            Except.ok (Expr.RegexMatch field ((raw.drop 1).dropRight 1))
      else if strContainsSub text " in " || strContainsSub text " not in " then
        let op := if strContainsSub text " not in " then MembershipOp.NotIn else MembershipOp.In
        match rest.getLast? with
        | none => Except.error (DslError.Parse "panic: predicate without operand")
        | some target =>
          match target with
          | Pair.mk Rule.list _ titems => do
              let items ← build_list_items pn titems
              return Expr.Membership field op (LiteralOrField.Lit (Literal.List items))
          | Pair.mk Rule.field_ref tstr _ =>
              Except.ok (Expr.Membership field op (LiteralOrField.Field (parse_field_ref tstr)))
          | Pair.mk _ _ _ =>
              Except.ok (Expr.Membership field op (LiteralOrField.Lit Literal.Null))
      else
        match rest.find? (fun q => q.rule == Rule.comparator) with
        | none => Except.error (DslError.Parse "panic: no comparator pair")
        | some cp =>
          let op := comparator_op cp.str
          match rest.getLast? with
          | none => Except.error (DslError.Parse "panic: predicate without operand")
          | some vp => do
              let value ← build_value_or_field pn vp
              return Expr.Compare field op value

/-! Concrete instances shared by witnesses and counterexamples. -/

/-- A number parse that always fails; no theorem below parses numbers. -/
def pnNone : NumberParse := fun _ => none

/-- A trivial regex compiler; no theorem below matches a regex. -/
def rxTriv : RegexCompile := fun _ => Except.ok (fun _ => false)

/-- A trivial regex validation; no theorem below checks a regex. -/
def rxvTriv : RegexCheck := fun _ => Except.ok ()

/-- The empty runtime context. -/
def emptyCtx : EvalContext := ⟨[]⟩

/-- The empty function registry. -/
def emptyReg : FunctionRegistry := ⟨[]⟩

/-- A signature lookup that knows no function. -/
def noFns : FunctionSignatures := fun _ => none

/-! Theorems for the claims. -/

/-- Claim C5: for every context and field reference fr, evaluating the
call exists with the single bare field argument fr returns Bool true
exactly when the dotted path of fr is a key of the context and Bool
false otherwise; the equation shows it never errors, never reads or
converts the field value, and is independent of the function registry. -/
theorem C5_exists_presence (rx : RegexCompile) (ctx : EvalContext)
    (fr : FieldRef) (fns : FunctionRegistry) :
    eval_value rx (Expr.Call "exists" [Expr.Field fr]) ctx fns
      = Except.ok (Value.Bool (ctx.contains_key fr.as_dotted)) := rfl

/-- Claim C6: logical operators short-circuit: whenever the left operand
evaluates to Bool false, conjunction returns Ok false for every right
operand, context and registry (so no lookup or call in the right operand
can matter); symmetrically disjunction returns Ok true when the left
operand evaluates to Bool true. -/
theorem C6_short_circuit (rx : RegexCompile) (lhs rhs : Expr)
    (ctx : EvalContext) (fns : FunctionRegistry) :
    (eval_value rx lhs ctx fns = Except.ok (Value.Bool false) →
      eval_with_registry rx (Expr.Logical LogicalOp.And lhs rhs) ctx fns
        = Except.ok false) ∧
    (eval_value rx lhs ctx fns = Except.ok (Value.Bool true) →
      eval_with_registry rx (Expr.Logical LogicalOp.Or lhs rhs) ctx fns
        = Except.ok true) := by
  constructor <;> intro h <;>
    simp [eval_with_registry, eval_value, h, as_bool, Bind.bind, Except.bind,
      Pure.pure, Except.pure]

/-- Claim C6 witness: false and-then a missing field is Ok false; true
or-else a missing field is Ok true. -/
theorem C6_short_circuit_witness :
    eval_with_registry rxTriv
      (Expr.Logical LogicalOp.And (Expr.Literal (Literal.Bool false))
        (Expr.Field (FieldRef.mk ["z"]))) emptyCtx emptyReg = Except.ok false ∧
    eval_with_registry rxTriv
      (Expr.Logical LogicalOp.Or (Expr.Literal (Literal.Bool true))
        (Expr.Field (FieldRef.mk ["z"]))) emptyCtx emptyReg = Except.ok true :=
  ⟨(C6_short_circuit rxTriv _ _ emptyCtx emptyReg).1 rfl,
   (C6_short_circuit rxTriv _ _ emptyCtx emptyReg).2 rfl⟩

/-- Claim C7: a Compare whose field is absent from the context fails with
MissingField carrying the canonical dotted path of the field, before the
operand is even considered. -/
theorem C7_missing_field (rx : RegexCompile) (ctx : EvalContext)
    (field : FieldRef) (op : CompareOp) (value : LiteralOrField)
    (fns : FunctionRegistry)
    (h : ctx.find field.as_dotted = none) :
    eval_value rx (Expr.Compare field op value) ctx fns
      = Except.error (EvalError.MissingField field.as_dotted) := by
  simp [eval_value, EvalContext.get, h, Bind.bind, Except.bind]

/-- Claim C7 witness: the spec instance, a.b == 1 against a context
lacking a.b, gives MissingField a.b and not a Type error. -/
theorem C7_missing_field_witness :
    emptyCtx.find (FieldRef.mk ["a", "b"]).as_dotted = none ∧
    eval_value rxTriv
      (Expr.Compare (FieldRef.mk ["a", "b"]) CompareOp.Eq
        (LiteralOrField.Lit (Literal.Number 1))) emptyCtx emptyReg
      = Except.error (EvalError.MissingField "a.b") :=
  ⟨rfl, C7_missing_field rxTriv emptyCtx (FieldRef.mk ["a", "b"]) CompareOp.Eq
    (LiteralOrField.Lit (Literal.Number 1)) emptyReg rfl⟩

/-- Claim C9: for every element value and target value, membership with
NotIn is the map of boolean negation over membership with In, so an Ok b
becomes Ok (not b) and an error is returned unchanged; and when the
target is not a Set value both forms fail with the same Type error. -/
theorem C9_not_in_negates_in (item target : Value) :
    membership MembershipOp.NotIn item target
      = Except.map (fun b => !b) (membership MembershipOp.In item target) ∧
    ((∀ items, target ≠ Value.Set items) →
      membership MembershipOp.In item target
          = Except.error (EvalError.typeError "membership target must be set") ∧
      membership MembershipOp.NotIn item target
          = Except.error (EvalError.typeError "membership target must be set")) := by
  cases target <;>
    simp [membership, Except.map]

/-- Claim C9 witness: a non-Set target, here Null, makes the In form fail
with the membership Type error. -/
theorem C9_not_in_negates_in_witness :
    membership MembershipOp.In (Value.Number 2) Value.Null
      = Except.error (EvalError.typeError "membership target must be set") :=
  ((C9_not_in_negates_in (Value.Number 2) Value.Null).2
    (fun _ h => Value.noConfusion h)).1

/-- Claim C2: the code at the failing input: evaluating a List literal
holding the field member a, against a context that maps a to Number 1,
yields a Set holding the placeholder string a built from the field name,
not the context value Number 1 of that field. -/
theorem C2_list_field_placeholder :
    eval_lit_or_field
      (LiteralOrField.Lit (Literal.List [LiteralOrField.Field (FieldRef.mk ["a"])]))
      (EvalContext.mk [("a", Value.Number 1)]) emptyReg
      = Except.ok (Value.Set [Value.Str "a"]) := rfl

/-- A dictionary declaring the single field a with type Bool. -/
def dictBoolA : Dictionary :=
  fun f => if f.path = ["a"] then some Ty.Bool else none

/-- Claim C3 counterexample: with field a declared Bool, the ordering
comparison a < true passes typecheck with result Bool instead of failing
with a TypeMismatch. -/
theorem C3_bool_ordering_counterexample :
    typecheck rxvTriv dictBoolA noFns
      (Expr.Compare (FieldRef.mk ["a"]) CompareOp.Lt
        (LiteralOrField.Lit (Literal.Bool true)))
      = Except.ok Ty.Bool := rfl

/-- Claim C3 amended: the static checker accepts a Compare of a Bool
field with a Bool operand for all six operators, returning Bool; the
rejection of ordering on booleans happens only at runtime, in compare,
which errors for Lt, Le, Gt and Ge and succeeds only for Eq and Ne. -/
theorem C3_bool_ordering_amended (rxv : RegexCheck) (dict : Dictionary)
    (fns : FunctionSignatures) (field : FieldRef) (op : CompareOp)
    (value : LiteralOrField) (x y : Bool)
    (hf : dict field = some Ty.Bool)
    (hv : infer_value value dict = Except.ok Ty.Bool) :
    typecheck rxv dict fns (Expr.Compare field op value) = Except.ok Ty.Bool ∧
    (op = CompareOp.Eq →
      compare op (Value.Bool x) (Value.Bool y) = Except.ok (x == y)) ∧
    (op = CompareOp.Ne →
      compare op (Value.Bool x) (Value.Bool y) = Except.ok (x != y)) ∧
    (op ≠ CompareOp.Eq → op ≠ CompareOp.Ne →
      compare op (Value.Bool x) (Value.Bool y)
        = Except.error (EvalError.typeError "ordering not supported for bool")) := by
  refine ⟨?_, ?_, ?_, ?_⟩
  · simp [typecheck, infer, hf, hv, Bind.bind, Except.bind, Pure.pure, Except.pure]
  all_goals cases op <;> simp [compare]

/-- Claim C3 amended witness: at the counterexample input, typecheck
accepts the ordering comparison of booleans that runtime compare
rejects. -/
theorem C3_bool_ordering_amended_witness :
    typecheck rxvTriv dictBoolA noFns
      (Expr.Compare (FieldRef.mk ["a"]) CompareOp.Lt
        (LiteralOrField.Lit (Literal.Bool true))) = Except.ok Ty.Bool ∧
    compare CompareOp.Lt (Value.Bool true) (Value.Bool false)
      = Except.error (EvalError.typeError "ordering not supported for bool") :=
  ⟨(C3_bool_ordering_amended rxvTriv dictBoolA noFns (FieldRef.mk ["a"])
      CompareOp.Lt (LiteralOrField.Lit (Literal.Bool true)) true false
      rfl rfl).1,
   (C3_bool_ordering_amended rxvTriv dictBoolA noFns (FieldRef.mk ["a"])
      CompareOp.Lt (LiteralOrField.Lit (Literal.Bool true)) true false
      rfl rfl).2.2.2 (by decide) (by decide)⟩

/-- Claim C4 counterexample: two Set values holding the same elements in
different orders are not equal under the derived PartialEq of Value used
by the membership and contains element tests. -/
theorem C4_set_equality_counterexample :
    valueEq (Value.Set [Value.Str "a", Value.Str "b"])
        (Value.Set [Value.Str "b", Value.Str "a"]) = false := rfl

/-- Claim C4 amended: equality on runtime Set values is positional, not
by membership: two Sets are equal under the derived PartialEq exactly
when they have the same length and pairwise equal elements in order; and
membership does test elements with this equality. -/
theorem C4_set_equality_positional (xs ys : List Value) :
    (valueEq (Value.Set xs) (Value.Set ys)
      = (xs.length == ys.length && (xs.zip ys).all (fun p => valueEq p.1 p.2))) ∧
    (∀ op item, membership op item (Value.Set xs)
      = Except.ok (match op with
          | MembershipOp.In => xs.any (fun v => valueEq v item)
          | MembershipOp.NotIn => !xs.any (fun v => valueEq v item))) := by
  refine ⟨?_, ?_⟩
  · show valueListEq xs ys = _
    induction xs generalizing ys with
    | nil => cases ys <;> simp [valueListEq]
    | cons x xs ih =>
        cases ys with
        | nil => simp [valueListEq]
        | cons y ys =>
            simp [valueListEq, ih, Bool.and_assoc, Bool.and_left_comm]
  · intro op item
    cases op <;> simp [membership]

/-! Spec-side dependency sets for claim C8, written from the amended
claim wording: the dotted string of every field reference reachable
through operator nodes — the field of a Compare, Membership, Contains
or RegexMatch node, every field reference inside their
literal-or-field operands including list-literal members, and bare
Field nodes — and every call name, with call arguments walked
recursively. A field reference inside a bare Literal expression node
is not part of these sets: that is the corner on which the original
claim fails, see the C8 counterexample below. These definitions are
compared with extract_dependencies, which is translated from the
source. -/

mutual

/-- Spec-side: all field references inside a literal-or-field operand. -/
def specLofFields : LiteralOrField → Finset String
  | LiteralOrField.Field fr => {fr.as_dotted}
  | LiteralOrField.Lit (Literal.List items) => specLofListFields items
  | LiteralOrField.Lit _ => ∅

/-- Spec-side: all field references inside the members of a list
literal. -/
def specLofListFields : List LiteralOrField → Finset String
  | [] => ∅
  | x :: xs => specLofFields x ∪ specLofListFields xs

end

mutual

/-- Spec-side, amended: the dotted strings of all field references in an
expression tree that sit under operator nodes or call arguments; a bare
Literal expression node contributes nothing, not even from list members. -/
def specFields : Expr → Finset String
  | Expr.Not e => specFields e
  | Expr.Logical _ l r => specFields l ∪ specFields r
  | Expr.Compare f _ v => {f.as_dotted} ∪ specLofFields v
  | Expr.Membership f _ l => {f.as_dotted} ∪ specLofFields l
  | Expr.Contains f _ v => {f.as_dotted} ∪ specLofFields v
  | Expr.RegexMatch f _ => {f.as_dotted}
  | Expr.Call _ args => specFieldsList args
  | Expr.Literal _ => ∅
  | Expr.Field fr => {fr.as_dotted}

/-- Spec-side: all field references anywhere under a list of argument
expressions. -/
def specFieldsList : List Expr → Finset String
  | [] => ∅
  | e :: es => specFields e ∪ specFieldsList es

end

mutual

/-- Spec-side: the names of all calls anywhere in an expression tree. -/
def specFuncs : Expr → Finset String
  | Expr.Not e => specFuncs e
  | Expr.Logical _ l r => specFuncs l ∪ specFuncs r
  | Expr.Compare _ _ _ => ∅
  | Expr.Membership _ _ _ => ∅
  | Expr.Contains _ _ _ => ∅
  | Expr.RegexMatch _ _ => ∅
  | Expr.Call name args => insert name (specFuncsList args)
  | Expr.Literal _ => ∅
  | Expr.Field _ => ∅

/-- Spec-side: all call names anywhere under a list of argument
expressions. -/
def specFuncsList : List Expr → Finset String
  | [] => ∅
  | e :: es => specFuncs e ∪ specFuncsList es

end

mutual

/-- The dependency collector on an operand adds exactly the spec-side
field set of the operand and leaves the function set unchanged. -/
theorem add_lit_or_field_eq (d : Dependencies) (v : LiteralOrField) :
    add_lit_or_field d v = ⟨d.fields ∪ specLofFields v, d.functions⟩ := by
  cases v with
  | Field fr =>
      simp [add_lit_or_field, add_field, specLofFields, Finset.insert_eq,
        Finset.union_comm]
  | Lit l =>
      cases l with
      | List items =>
          simpa [add_lit_or_field, specLofFields] using add_lof_list_eq d items
      | Bool b => simp [add_lit_or_field, specLofFields]
      | Number n => simp [add_lit_or_field, specLofFields]
      | Str s => simp [add_lit_or_field, specLofFields]
      | Null => simp [add_lit_or_field, specLofFields]
      | Regex s => simp [add_lit_or_field, specLofFields]

/-- The loop of the dependency collector over list-literal members adds
exactly the spec-side field set of the members. -/
theorem add_lof_list_eq (d : Dependencies) (items : List LiteralOrField) :
    add_lof_list d items = ⟨d.fields ∪ specLofListFields items, d.functions⟩ := by
  match items with
  | [] => simp [add_lof_list, specLofListFields]
  | x :: xs =>
      rw [add_lof_list, add_lit_or_field_eq d x,
        add_lof_list_eq ⟨d.fields ∪ specLofFields x, d.functions⟩ xs]
      simp [specLofListFields, Finset.union_assoc]

end

mutual

/-- The walk of the source adds exactly the spec-side field set and the
spec-side function set of the expression to the accumulator. -/
theorem walk_eq (e : Expr) (d : Dependencies) :
    walk e d = ⟨d.fields ∪ specFields e, d.functions ∪ specFuncs e⟩ := by
  cases e with
  | Not e =>
      rw [walk, walk_eq e d]; simp [specFields, specFuncs]
  | Logical op l r =>
      rw [walk, walk_eq l d, walk_eq r _]
      simp [specFields, specFuncs, Finset.union_assoc]
  | Compare f op v =>
      rw [walk, add_lit_or_field_eq]
      simp [add_field, specFields, specFuncs, Finset.insert_eq,
        Finset.union_assoc, Finset.union_comm, Finset.union_left_comm]
  | Membership f op l =>
      rw [walk, add_lit_or_field_eq]
      simp [add_field, specFields, specFuncs, Finset.insert_eq,
        Finset.union_assoc, Finset.union_comm, Finset.union_left_comm]
  | Contains f op v =>
      rw [walk, add_lit_or_field_eq]
      simp [add_field, specFields, specFuncs, Finset.insert_eq,
        Finset.union_assoc, Finset.union_comm, Finset.union_left_comm]
  | RegexMatch f p =>
      simp [walk, add_field, specFields, specFuncs, Finset.insert_eq,
        Finset.union_comm]
  | Call name args =>
      rw [walk, walk_args_eq args _]
      simp [specFields, specFuncs, Finset.insert_eq, Finset.union_assoc,
        Finset.union_comm, Finset.union_left_comm]
  | Literal l => simp [walk, specFields, specFuncs]
  | Field fr =>
      simp [walk, add_field, specFields, specFuncs, Finset.insert_eq,
        Finset.union_comm]

/-- The walk loop over call arguments adds exactly the spec-side sets of
the arguments. -/
theorem walk_args_eq (args : List Expr) (d : Dependencies) :
    walk_args args d = ⟨d.fields ∪ specFieldsList args, d.functions ∪ specFuncsList args⟩ := by
  match args with
  | [] => simp [walk_args, specFieldsList, specFuncsList]
  | a :: rest =>
      rw [walk_args, walk_eq a d, walk_args_eq rest _]
      simp [specFieldsList, specFuncsList, Finset.union_assoc]

end

/-- Claim C8 counterexample: a field reference inside a bare list
literal expression node is dropped: the walk arm for a Literal node
contributes nothing, so extract_dependencies on the expression that is
just the list literal holding the field member c.d yields the empty
field set, refuting the collection of every field reference anywhere in
the tree including inside list literals. -/
theorem C8_bare_list_literal_counterexample :
    (extract_dependencies
      (Expr.Literal (Literal.List
        [LiteralOrField.Field (FieldRef.mk ["c", "d"])]))).fields = ∅ := rfl

/-- Claim C8 amended: extract_dependencies collects exactly the dotted
string of every field reference that sits under an operator node — the
field of a Compare, Membership, Contains or RegexMatch node, every
field reference inside their operands including list-literal members,
and bare Field nodes — into fields, and every call name into functions,
walking call arguments recursively; field references inside a bare
Literal expression node are not collected. In particular, on the tree
of the expression a.b equals x and-then a.b in the list of y and c.d,
it yields the field set of a.b and c.d and the empty function set. -/
theorem C8_extract_dependencies_amended :
    (∀ e : Expr, extract_dependencies e = ⟨specFields e, specFuncs e⟩) ∧
    (extract_dependencies
      (Expr.Logical LogicalOp.And
        (Expr.Compare (FieldRef.mk ["a", "b"]) CompareOp.Eq
          (LiteralOrField.Lit (Literal.Str "x")))
        (Expr.Membership (FieldRef.mk ["a", "b"]) MembershipOp.In
          (LiteralOrField.Lit (Literal.List
            [LiteralOrField.Lit (Literal.Str "y"),
             LiteralOrField.Field (FieldRef.mk ["c", "d"])]))))).fields
      = {"a.b", "c.d"} ∧
    (extract_dependencies
      (Expr.Logical LogicalOp.And
        (Expr.Compare (FieldRef.mk ["a", "b"]) CompareOp.Eq
          (LiteralOrField.Lit (Literal.Str "x")))
        (Expr.Membership (FieldRef.mk ["a", "b"]) MembershipOp.In
          (LiteralOrField.Lit (Literal.List
            [LiteralOrField.Lit (Literal.Str "y"),
             LiteralOrField.Field (FieldRef.mk ["c", "d"])]))))).functions
      = ∅ := by
  refine ⟨fun e => ?_, by decide, by decide⟩
  rw [extract_dependencies, walk_eq]
  simp

/-- Claim C1 counterexample: the comparator predicate a == " in ", whose
string operand makes the rendered text contain the substring
space-in-space, is built by build_predicate into a Membership node with
op In and a Null list, not into the Compare node of its grammatical
shape: the dispatch inspects the rendered text of the matched
predicate. -/
theorem C1_text_dispatch_counterexample :
    build_predicate pnNone
      (Pair.mk Rule.predicate "a == \" in \""
        [Pair.mk Rule.field_ref "a" [], Pair.mk Rule.comparator "==" [],
         Pair.mk Rule.value "\" in \"" [Pair.mk Rule.string "\" in \"" []]])
      = Except.ok (Expr.Membership (FieldRef.mk ["a"]) MembershipOp.In
          (LiteralOrField.Lit Literal.Null)) := rfl

/-- Claim C1 amended: build_predicate dispatches by substring search
over the rendered text of the matched predicate, so the grammatical
shape is honored only when the text avoids the dispatch substrings: a
comparator predicate whose rendered text contains none of
space-contains-space, tilde, space-in-space and space-not-in-space is
built into the Compare node with the comparator of its comparator pair
and its built operand. -/
theorem C1_text_dispatch_amended (pn : NumberParse) (text fstr : String)
    (cp vp : Pair)
    (hc : strContainsSub text " contains " = false)
    (ht : strContainsSub text "~" = false)
    (hi : strContainsSub text " in " = false)
    (hni : strContainsSub text " not in " = false)
    (hcp : cp.rule = Rule.comparator) :
    build_predicate pn
      (Pair.mk Rule.predicate text [Pair.mk Rule.field_ref fstr [], cp, vp])
      = Except.map
          (fun value => Expr.Compare (parse_field_ref fstr) (comparator_op cp.str) value)
          (build_value_or_field pn vp) := by
  cases cp with
  | mk cr cs ci =>
    simp only [Pair.rule] at hcp
    subst hcp
    cases hbv : build_value_or_field pn vp <;>
      simp [build_predicate, hc, ht, hi, hni, List.find?, Pair.rule, Pair.str,
        List.getLast?, Except.map, Bind.bind, Except.bind, hbv, Pure.pure,
        Except.pure]

/-- Claim C1 amended witness: the clean comparator predicate a == "x",
whose rendered text avoids all dispatch substrings, builds into the
expected Compare node. -/
theorem C1_text_dispatch_amended_witness :
    build_predicate pnNone
      (Pair.mk Rule.predicate "a == \"x\""
        [Pair.mk Rule.field_ref "a" [], Pair.mk Rule.comparator "==" [],
         Pair.mk Rule.value "\"x\"" [Pair.mk Rule.string "\"x\"" []]])
      = Except.ok (Expr.Compare (FieldRef.mk ["a"]) CompareOp.Eq
          (LiteralOrField.Lit (Literal.Str "x"))) := by
  rw [C1_text_dispatch_amended pnNone "a == \"x\"" "a"
      (Pair.mk Rule.comparator "==" [])
      (Pair.mk Rule.value "\"x\"" [Pair.mk Rule.string "\"x\"" []])
      rfl rfl rfl rfl rfl]
  rfl

/-- Claim C10: when a Call named exists does not have exactly one
argument that is syntactically a bare Field node, the special form does
not apply: the call evaluates all arguments eagerly and looks exists up
in the registry like any other name, and with no registered function of
that name it fails with the unknown-function Type error. -/
theorem C10_exists_fallthrough (rx : RegexCompile) (ctx : EvalContext)
    (fns : FunctionRegistry) (args : List Expr)
    (h : args.length ≠ 1 ∨ ∀ fr, args ≠ [Expr.Field fr]) :
    (eval_value rx (Expr.Call "exists" args) ctx fns
      = (match eval_args rx args ctx fns with
         | Except.ok argv =>
             (match fns.get "exists" with
              | some f => f argv ctx
              | none => Except.error (EvalError.typeError "unknown function exists"))
         | Except.error e => Except.error e)) ∧
    (fns.get "exists" = none →
      ∀ argv, eval_args rx args ctx fns = Except.ok argv →
        eval_value rx (Expr.Call "exists" args) ctx fns
          = Except.error (EvalError.typeError "unknown function exists")) := by
  have hnone : isExistsForm "exists" args = none := by
    cases args with
    | nil => rfl
    | cons a rest =>
        cases rest with
        | cons b r2 => cases a <;> rfl
        | nil =>
            cases a with
            | Field fr =>
                rcases h with h1 | h2
                · exact absurd rfl h1
                · exact absurd rfl (h2 fr)
            | Not e => rfl
            | Logical op l r => rfl
            | Compare f op v => rfl
            | Membership f op l => rfl
            | Contains f op v => rfl
            | RegexMatch f p => rfl
            | Call n zs => rfl
            | Literal l => rfl
  have hmain : eval_value rx (Expr.Call "exists" args) ctx fns
      = (match eval_args rx args ctx fns with
         | Except.ok argv =>
             (match fns.get "exists" with
              | some f => f argv ctx
              | none => Except.error (EvalError.typeError "unknown function exists"))
         | Except.error e => Except.error e) := by
    cases heq : eval_args rx args ctx fns <;>
      simp [eval_value, hnone, heq, Bind.bind, Except.bind]
  refine ⟨hmain, fun hget argv hargs => ?_⟩
  rw [hmain, hargs, hget]

/-- Claim C10 witness: calling exists with no arguments against an empty
registry fails with the unknown-function Type error. -/
theorem C10_exists_fallthrough_witness :
    eval_value rxTriv (Expr.Call "exists" []) emptyCtx emptyReg
      = Except.error (EvalError.typeError "unknown function exists") :=
  (C10_exists_fallthrough rxTriv emptyCtx emptyReg []
    (Or.inl (by decide))).2 rfl [] rfl

end Tiimu
